import Mathlib

/-!
Verification development for the atch direct-messaging service.

The development shallowly embeds the code that the spec describes:

* `src/frontend-web/src/utils/encryption.ts` (the EncryptionService class):
  the wrapper logic (validation, error wrapping, record construction) is
  translated line by line; the external CryptoJS AES-CBC passphrase-mode
  primitive is modelled symbolically (an ideal cipher: decryption with the
  matching passphrase recovers the plaintext, any other passphrase yields
  no valid UTF-8 plaintext, which CryptoJS surfaces as an empty string on
  the WordArray-to-Utf8 conversion).  Randomness (IVs, salts, generated
  keys, timestamps) is passed explicitly as arguments.
* `src/backend/src/socket/socketHandler.js` (the SocketHandler class):
  handlers become functions from an explicit server state to a new state
  plus a trace of actions (persist calls and socket emissions); external
  collaborators (ConversationService, MessageService, the database) enter
  as explicit outcome arguments.
* `src/backend/src/services/userService.js` (the ConversationKeyService
  class): the conversation_keys table becomes a list of rows, SELECT,
  UPDATE and INSERT become the corresponding list operations.
-/

namespace Atch

/-! ### Symbolic model of the external CryptoJS AES primitive

`CryptoJS.AES.encrypt(plaintext, key, cfg)` with a string `key` runs in
passphrase mode: a key and IV are derived from the passphrase and a random
salt, and the resulting OpenSSL-format blob embeds the salt.  Decryption
with the matching passphrase recovers the plaintext; decryption with any
other passphrase produces bytes that are not valid UTF-8 (or unpad to
nothing), so the `toString(CryptoJS.enc.Utf8)` step in the service yields
the empty string.  We model the blob symbolically. -/

structure CJSCipherText where
  body : String
  passphrase : String
  salt : Nat
deriving Repr, DecidableEq

/-- Symbolic CryptoJS AES-CBC encryption in passphrase mode. -/
def cjsEncrypt (plaintext passphrase : String) (salt : Nat) : CJSCipherText :=
  ⟨plaintext, passphrase, salt⟩

/-- Symbolic CryptoJS AES-CBC decryption followed by the UTF-8 conversion:
a wrong passphrase yields garbage bytes whose UTF-8 rendering is empty. -/
def cjsDecryptUtf8 (ct : CJSCipherText) (passphrase : String) : String :=
  if passphrase = ct.passphrase then ct.body else ""

/-- Mirror of the TS interface EncryptedData in encryption.ts. -/
structure EncryptedData where
  encryptedContent : CJSCipherText
  iv : String
deriving Repr, DecidableEq

/-- EncryptionService.encryptData, encryption.ts lines 96-123.
Validation errors are rethrown by the catch block with the prefix
"Encryption failed: ".  The random IV is an explicit argument (the TS code
draws it from CryptoJS.lib.WordArray.random(16) and stores its hex
rendering, a 32-character string, so a genuine draw is never empty); in
passphrase mode the cipher itself ignores it, but it is carried in the
result as in the code. -/
def encryptData (plaintext key : String) (ivRand : String) (saltRand : Nat) :
    Except String EncryptedData :=
  if plaintext = "" then .error "Encryption failed: Plaintext cannot be empty"
  else if key = "" then .error "Encryption failed: Encryption key cannot be empty"
  else .ok ⟨cjsEncrypt plaintext key saltRand, ivRand⟩

/-- EncryptionService.decryptData, encryption.ts lines 129-157.
The falsiness guard on encryptedContent cannot fire on a genuine cipher
blob (the OpenSSL format is never the empty string), so only the guard on
the iv field is representable; the empty-plaintext check after the UTF-8
conversion is the branch that turns a wrong-key decryption into a thrown
CryptoError, rethrown with the prefix "Decryption failed: ". -/
def decryptData (e : EncryptedData) (key : String) : Except String String :=
  if e.iv = "" then .error "Decryption failed: Invalid encrypted data"
  else if key = "" then .error "Decryption failed: Decryption key cannot be empty"
  else
    let plaintext := cjsDecryptUtf8 e.encryptedContent key
    if plaintext = "" then
      .error "Decryption failed: Decryption resulted in empty string - invalid key or corrupted data"
    else .ok plaintext

/-- Mirror of the TS interface ConversationKey in encryption.ts. -/
structure ConversationKey where
  keyId : String
  conversationId : String
  aesKey : String
  participants : List String
  createdAt : Nat
deriving Repr, DecidableEq

/-- Mirror of the TS interface EncryptedConversationKey in encryption.ts. -/
structure EncryptedConversationKey where
  keyId : String
  conversationId : String
  encryptedKey : EncryptedData
  participants : List String
  createdAt : Nat
deriving Repr, DecidableEq

/-- EncryptionService.generateConversationKey, encryption.ts lines 196-223.
The generated keyId and aesKey (CryptoJS random draws) and the timestamp
are explicit arguments.  JS `[...participants].sort()` sorts a copy of the
participant id strings lexicographically; we model it with insertion sort
over the linear order on String. -/
def generateConversationKey (conversationId : String) (participants : List String)
    (keyIdRand aesKeyRand : String) (now : Nat) : Except String ConversationKey :=
  if conversationId = "" then
    .error "Conversation key generation failed: Conversation ID cannot be empty"
  else if participants.length < 2 then
    .error "Conversation key generation failed: Conversation must have at least 2 participants"
  else .ok ⟨keyIdRand, conversationId, aesKeyRand,
    participants.insertionSort (fun a b => a ≤ b), now⟩

/-- EncryptionService.encryptConversationKey, encryption.ts lines 229-262.
The aesKey falsiness guard and the master-key guard are the two validation
branches; errors from encryptData are rethrown with the prefix
"Conversation key encryption failed: ". -/
def encryptConversationKey (ck : ConversationKey) (userMasterKey : String)
    (ivRand : String) (saltRand : Nat) : Except String EncryptedConversationKey :=
  if ck.aesKey = "" then
    .error "Conversation key encryption failed: Invalid conversation key"
  else if userMasterKey = "" then
    .error "Conversation key encryption failed: User master key cannot be empty"
  else
    match encryptData ck.aesKey userMasterKey ivRand saltRand with
    | .error e => .error ("Conversation key encryption failed: " ++ e)
    | .ok enc => .ok ⟨ck.keyId, ck.conversationId, enc, ck.participants, ck.createdAt⟩

/-- EncryptionService.decryptConversationKey, encryption.ts lines 268-301.
The falsiness guard on encryptedKey cannot fire on a structurally present
record; errors from decryptData are rethrown with the prefix
"Conversation key decryption failed: ". -/
def decryptConversationKey (eck : EncryptedConversationKey) (userMasterKey : String) :
    Except String ConversationKey :=
  if userMasterKey = "" then
    .error "Conversation key decryption failed: User master key cannot be empty"
  else
    match decryptData eck.encryptedKey userMasterKey with
    | .error e => .error ("Conversation key decryption failed: " ++ e)
    | .ok aesKey =>
      .ok ⟨eck.keyId, eck.conversationId, aesKey, eck.participants, eck.createdAt⟩

/-- EncryptionService.encryptMessage, encryption.ts lines 307-328. -/
def encryptMessage (message : String) (ck : ConversationKey)
    (ivRand : String) (saltRand : Nat) : Except String EncryptedData :=
  if message = "" then .error "Message encryption failed: Message cannot be empty"
  else if ck.aesKey = "" then .error "Message encryption failed: Invalid conversation key"
  else
    match encryptData message ck.aesKey ivRand saltRand with
    | .error e => .error ("Message encryption failed: " ++ e)
    | .ok enc => .ok enc

/-- EncryptionService.decryptMessage, encryption.ts lines 334-355. -/
def decryptMessage (em : EncryptedData) (ck : ConversationKey) :
    Except String String :=
  if ck.aesKey = "" then .error "Message decryption failed: Invalid conversation key"
  else
    match decryptData em ck.aesKey with
    | .error e => .error ("Message decryption failed: " ++ e)
    | .ok m => .ok m

/-- Containment of one character sequence at the head of another. -/
def beginsWith : List Char → List Char → Bool
  | [], _ => true
  | _ :: _, [] => false
  | c :: p, d :: s => c == d && beginsWith p s

/-- Containment of one character sequence anywhere inside another. -/
def containsSeq (p : List Char) : List Char → Bool
  | [] => beginsWith p []
  | c :: rest => beginsWith p (c :: rest) || containsSeq p rest

/-! ### The real-time delivery layer, socketHandler.js

Handlers are functions of an explicit server state.  The socket.io server
is a list of connected sockets, each carrying its authenticated user and
its current room set; the SocketHandler field userSockets is the Map from
user id to the set of that user socket ids.  Each handler returns a trace
of actions: membership checks, store appends and socket emissions. -/

/-- Payload of the messageData object built in handleSendMessage,
socketHandler.js lines 162-172. -/
structure MessageData where
  id : Nat
  conversationId : Nat
  senderId : Nat
  senderUsername : String
  recipientId : Nat
  encryptedContent : String
  iv : String
  messageType : String
  createdAt : Nat
deriving Repr, DecidableEq

/-- Event payloads appearing on the wire. -/
inductive Payload
  | msg (m : MessageData)
  | err (reason : String)
  | joined (conversationId : Nat) (message : String)
  | status (userId : Nat) (username target : String)
deriving Repr, DecidableEq

/-- Observable actions a handler performs, in order. -/
inductive Action
  | checkMembership (conversationId : Nat) (userId : Nat)
  | persisted (conversationUuid : String) (senderId : Nat)
      (encryptedContent iv messageType : String)
  | emit (socketId : String) (event : String) (payload : Payload)
  | broadcastAll (event : String) (payload : Payload)
  | removeSession (socketId : String)
deriving Repr, DecidableEq

/-- A connected socket.io socket: its id, its authenticated user
(socket.user) and the rooms it has joined (socket.rooms). -/
structure Socket where
  id : String
  userId : Nat
  username : String
  rooms : List String
deriving Repr, DecidableEq

/-- The SocketHandler state: the userSockets Map (userId to set of socket
ids) plus the io.sockets.sockets collection of connected sockets. -/
structure ServerState where
  userSockets : List (Nat × List String)
  sockets : List Socket
deriving Repr, DecidableEq

/-- SocketHandler.getUserSockets, socketHandler.js lines 62-64:
the Map lookup (at most one entry per user id), defaulting to the empty
set. -/
def getUserSockets : List (Nat × List String) → Nat → List String
  | [], _ => []
  | e :: t, uid => if e.1 = uid then e.2 else getUserSockets t uid

/-- io.sockets.sockets.get: look a connected socket up by id. -/
def findSocket (st : ServerState) (sid : String) : Option Socket :=
  st.sockets.find? (fun s => s.id == sid)

/-- The room naming convention used throughout socketHandler.js. -/
def roomName (cid : Nat) : String := "conversation_" ++ toString cid

/-- socket.rooms membership as maintained by socket.join: set insert. -/
def addRoom (room : String) (rooms : List String) : List String :=
  if rooms.contains room then rooms else rooms ++ [room]

/-- The current subscribed session set of a conversation room
(membersOf in the spec): ids of connected sockets that joined the room. -/
def membersOf (st : ServerState) (cid : Nat) : List String :=
  (st.sockets.filter (fun s => s.rooms.contains (roomName cid))).map Socket.id

/-- SocketHandler.handleJoinConversation, socketHandler.js lines 85-109.
The ConversationService.verifyUserInConversation verdict enters as the
access argument; the trace records that the check was consulted with the
arguments of this call.  On access the socket joins the room and gets the
confirmation; otherwise an error is emitted and the state is untouched. -/
def handleJoinConversation (st : ServerState) (sock : Socket) (cid : Nat)
    (access : Bool) : ServerState × List Action :=
  if access then
    ({ st with sockets := st.sockets.map (fun s =>
        if s.id == sock.id then { s with rooms := addRoom (roomName cid) s.rooms }
        else s) },
     [.checkMembership cid sock.userId,
      .emit sock.id "conversation_joined" (.joined cid "Successfully joined conversation")])
  else
    (st, [.checkMembership cid sock.userId,
          .emit sock.id "error" (.err "Access denied to conversation")])

/-- The data object of a send_message event; fields can be absent. -/
structure SendData where
  recipientId : Option Nat
  encryptedContent : Option String
  iv : Option String
  messageType : String
deriving Repr, DecidableEq

/-- The room broadcast of handleSendMessage, socketHandler.js line 177:
socket.to(roomName).emit sends new_message to every connected socket that
joined the room except the sending socket itself. -/
def roomFanout (st : ServerState) (sock : Socket) (room : String)
    (md : MessageData) : List Action :=
  (st.sockets.filter (fun s => s.id != sock.id && s.rooms.contains room)).map
    (fun s => Action.emit s.id "new_message" (.msg md))

/-- The recipient loop of handleSendMessage, socketHandler.js lines
179-185: every socket of the recipient that is connected and not in the
room also receives new_message. -/
def recipientFanout (st : ServerState) (rid : Nat) (room : String)
    (md : MessageData) : List Action :=
  (getUserSockets st.userSockets rid).filterMap (fun sid =>
    match findSocket st sid with
    | some rs =>
      if rs.rooms.contains room then none
      else some (Action.emit sid "new_message" (.msg md))
    | none => none)

/-- SocketHandler.handleSendMessage, socketHandler.js lines 123-189.
External outcomes are arguments: convRes is the result of
ConversationService.findOrCreateConversation (the integer conversation
id, or a thrown error), uuidRow the conversations row lookup, storeRes
the result of MessageService.sendMessage (the insert id and creation
time on success, a thrown error on failure).  Any thrown error reaches
the surrounding catch, which emits the generic message_error.  The JS
falsiness guard on the three destructured fields rejects absent values
as well as 0 and the empty string. -/
def handleSendMessage (st : ServerState) (sock : Socket) (data : SendData)
    (convRes : Except String Nat) (uuidRow : Option String)
    (storeRes : Except String (Nat × Nat)) : List Action :=
  match data.recipientId, data.encryptedContent, data.iv with
  | some rid, some content, some ivs =>
    if rid == 0 || content == "" || ivs == "" then
      [.emit sock.id "message_error" (.err "Missing required fields")]
    else if rid == sock.userId then
      [.emit sock.id "message_error" (.err "Cannot send message to yourself")]
    else
      match convRes with
      | .error _ => [.emit sock.id "message_error" (.err "Failed to send message")]
      | .ok convId =>
        match uuidRow with
        | none => [.emit sock.id "message_error" (.err "Conversation not found")]
        | some uuid =>
          match storeRes with
          | .error _ => [.emit sock.id "message_error" (.err "Failed to send message")]
          | .ok (insertId, now) =>
            let md : MessageData :=
              ⟨insertId, convId, sock.userId, sock.username, rid, content, ivs,
               data.messageType, now⟩
            .persisted uuid sock.userId content ivs data.messageType ::
            .emit sock.id "message_sent" (.msg md) ::
            (roomFanout st sock (roomName convId) md ++
             recipientFanout st rid (roomName convId) md)
  | _, _, _ => [.emit sock.id "message_error" (.err "Missing required fields")]

/-- SocketHandler.removeUserSocket, socketHandler.js lines 53-60:
delete the socket id from the set of the user, dropping the Map entry
when the set becomes empty.  The Map holds at most one entry per user id,
so the update applies to the (unique) matching entry. -/
def removeUserSocket : List (Nat × List String) → Nat → String →
    List (Nat × List String)
  | [], _, _ => []
  | e :: t, uid, sid =>
    if e.1 = uid then
      if (e.2.filter (fun x => x != sid)).isEmpty then t
      else (e.1, e.2.filter (fun x => x != sid)) :: t
    else e :: removeUserSocket t uid sid

/-- SocketHandler.handleDisconnection, socketHandler.js lines 255-270:
remove the socket from the registry and the session store; if the user
has no remaining socket, broadcast the offline status once. -/
def handleDisconnection (st : ServerState) (sock : Socket) :
    ServerState × List Action :=
  let us := removeUserSocket st.userSockets sock.userId sock.id
  if (getUserSockets us sock.userId).length == 0 then
    ({ st with userSockets := us },
     [.removeSession sock.id,
      .broadcastAll "user_status_changed" (.status sock.userId sock.username "offline")])
  else
    ({ st with userSockets := us }, [.removeSession sock.id])

/-! ### The conversation key store, userService.js -/

/-- A row of the conversation_keys table. -/
structure ConversationKeyRow where
  rowId : Nat
  keyId : String
  conversationId : String
  userId : Nat
  encryptedAesKey : String
  iv : String
deriving Repr, DecidableEq

/-- The WHERE clause shared by the SELECT, UPDATE and INSERT in
ConversationKeyService.storeConversationKey. -/
def keyRowMatches (cid : String) (uid : Nat) (r : ConversationKeyRow) : Bool :=
  r.userId == uid && r.conversationId == cid

/-- ConversationKeyService.storeConversationKey, userService.js lines
226-255: SELECT the rows for (userId, conversationId); when one exists
UPDATE it in place, otherwise INSERT a fresh row (its auto-increment id
is the explicit newRowId argument). -/
def storeConversationKey (table : List ConversationKeyRow) (cid : String)
    (uid : Nat) (kid encKey ivVal : String) (newRowId : Nat) :
    List ConversationKeyRow :=
  if (table.filter (keyRowMatches cid uid)).length > 0 then
    table.map (fun r =>
      if keyRowMatches cid uid r then
        { r with keyId := kid, encryptedAesKey := encKey, iv := ivVal }
      else r)
  else
    table ++ [⟨newRowId, kid, cid, uid, encKey, ivVal⟩]

/-- One storeConversationKey request. -/
structure StoreKeyOp where
  cid : String
  uid : Nat
  kid : String
  encKey : String
  ivVal : String
  rowId : Nat
deriving Repr, DecidableEq

/-- Apply one storeConversationKey request to the table. -/
def applyStoreKey (table : List ConversationKeyRow) (op : StoreKeyOp) :
    List ConversationKeyRow :=
  storeConversationKey table op.cid op.uid op.kid op.encKey op.ivVal op.rowId

/-- The table invariant of the spec: at most one row per
(conversationId, participantUserId) pair. -/
def KeyInv (table : List ConversationKeyRow) : Prop :=
  ∀ cid uid, (table.filter (keyRowMatches cid uid)).length ≤ 1

/-! ### Claims about the encryption service -/

/-- C3: for every plaintext m and key k, whenever encryptData accepts the
inputs and produces a ciphertext, decrypting that ciphertext with the same
key k returns exactly m.  The hypothesis on the IV records that a genuine
CryptoJS random IV renders as a non-empty hex string. -/
theorem C3_decrypt_encrypt_roundtrip (m k ivR : String) (saltR : Nat)
    (e : EncryptedData) (hiv : ivR ≠ "")
    (h : encryptData m k ivR saltR = .ok e) :
    decryptData e k = .ok m := by
  unfold encryptData at h
  by_cases hm : m = "" <;> simp [hm] at h
  by_cases hk : k = "" <;> simp [hk] at h
  subst h
  simp [decryptData, cjsEncrypt, cjsDecryptUtf8, hiv, hk, hm]

/-- Witness for C3 at a concrete plaintext, key, IV and salt. -/
theorem C3_decrypt_encrypt_roundtrip_witness :
    decryptData ⟨cjsEncrypt "hello" "k1" 7, "aa"⟩ "k1" = .ok "hello" :=
  C3_decrypt_encrypt_roundtrip "hello" "k1" "aa" 7 ⟨cjsEncrypt "hello" "k1" 7, "aa"⟩
    (by decide) rfl

/-- C2: decrypting a ciphertext produced under key k with any other key
fails with a thrown error and never yields any plaintext; with well-formed
inputs (non-empty IV and attempted key) the failure is specifically the
wrong-key CryptoError of decryptData, a terminal failure the presentation
layer can tell apart from the recoverable key-not-yet-available state. -/
theorem C2_wrong_key_decrypt_fails (m k kp ivR : String) (saltR : Nat)
    (e : EncryptedData) (h : encryptData m k ivR saltR = .ok e)
    (hne : kp ≠ k) :
    (∃ msg, decryptData e kp = .error msg) ∧
    (∀ p, decryptData e kp ≠ .ok p) ∧
    (ivR ≠ "" → kp ≠ "" → decryptData e kp =
      .error "Decryption failed: Decryption resulted in empty string - invalid key or corrupted data") := by
  unfold encryptData at h
  by_cases hm : m = "" <;> simp [hm] at h
  by_cases hk : k = "" <;> simp [hk] at h
  subst h
  refine ⟨?_, ?_, ?_⟩
  · by_cases hiv : ivR = ""
    · exact ⟨"Decryption failed: Invalid encrypted data", by simp [decryptData, hiv]⟩
    · by_cases hkp : kp = ""
      · exact ⟨"Decryption failed: Decryption key cannot be empty",
          by simp [decryptData, hiv, hkp]⟩
      · exact ⟨"Decryption failed: Decryption resulted in empty string - invalid key or corrupted data",
          by simp [decryptData, cjsEncrypt, cjsDecryptUtf8, hiv, hkp, hne]⟩
  · intro p hp
    by_cases hiv : ivR = ""
    · simp [decryptData, hiv] at hp
    · by_cases hkp : kp = ""
      · simp [decryptData, hiv, hkp] at hp
      · simp [decryptData, cjsEncrypt, cjsDecryptUtf8, hiv, hkp, hne] at hp
  · intro hiv hkp
    simp [decryptData, cjsEncrypt, cjsDecryptUtf8, hiv, hkp, hne]

/-- Witness for C2 at a concrete message, key and wrong key. -/
theorem C2_wrong_key_decrypt_fails_witness :
    (∃ msg, decryptData ⟨cjsEncrypt "hello" "k1" 7, "aa"⟩ "k2" = .error msg) ∧
    (∀ p, decryptData ⟨cjsEncrypt "hello" "k1" 7, "aa"⟩ "k2" ≠ .ok p) ∧
    ("aa" ≠ "" → "k2" ≠ "" → decryptData ⟨cjsEncrypt "hello" "k1" 7, "aa"⟩ "k2" =
      .error "Decryption failed: Decryption resulted in empty string - invalid key or corrupted data") :=
  C2_wrong_key_decrypt_fails "hello" "k1" "k2" "aa" 7
    ⟨cjsEncrypt "hello" "k1" 7, "aa"⟩ rfl (by decide)

/-- C6: for every conversation key record and every participant master
key, wrapping the key with that master key and unwrapping with the same
master key returns exactly the original record, whichever participant
performed the wrap.  The hypotheses record the validation guards of the
code (non-empty wrapped key and master key) and the non-empty rendering
of a genuine random IV. -/
theorem C6_unwrap_wrap_roundtrip (ck : ConversationKey) (mk ivR : String)
    (saltR : Nat) (hk : ck.aesKey ≠ "") (hmk : mk ≠ "") (hiv : ivR ≠ "") :
    ∃ eck, encryptConversationKey ck mk ivR saltR = .ok eck ∧
      decryptConversationKey eck mk = .ok ck := by
  refine ⟨⟨ck.keyId, ck.conversationId, ⟨cjsEncrypt ck.aesKey mk saltR, ivR⟩,
    ck.participants, ck.createdAt⟩, ?_, ?_⟩
  · simp [encryptConversationKey, encryptData, hk, hmk]
  · simp [decryptConversationKey, decryptData, cjsEncrypt, cjsDecryptUtf8,
      hk, hmk, hiv]

/-- Witness for C6 at a concrete conversation key and two distinct
participant master keys (projected at the first). -/
theorem C6_unwrap_wrap_roundtrip_witness :
    ∃ eck, encryptConversationKey ⟨"kid", "conv", "aeskey", ["u1", "u2"], 3⟩
        "mk1" "bb" 9 = .ok eck ∧
      decryptConversationKey eck "mk1" = .ok ⟨"kid", "conv", "aeskey", ["u1", "u2"], 3⟩ :=
  C6_unwrap_wrap_roundtrip ⟨"kid", "conv", "aeskey", ["u1", "u2"], 3⟩ "mk1" "bb" 9
    (by decide) (by decide) (by decide)

/-- C9 counterexample: at the encryptMessage level the empty message is
rejected by the message guard, whose error text is Message cannot be
empty; the text Plaintext cannot be empty quoted by the claim does not
occur in the thrown message. -/
theorem C9_counterexample :
    encryptMessage "" ⟨"kid", "conv", "aeskey", ["u1", "u2"], 3⟩ "cc" 0 =
      .error "Message encryption failed: Message cannot be empty" ∧
    containsSeq "Plaintext cannot be empty".data
      "Message encryption failed: Message cannot be empty".data = false := by
  exact ⟨rfl, by decide⟩

/-- C9 amended: encrypting the empty string throws a validation error and
returns no ciphertext at both levels; the raw encryptData level throws
Plaintext cannot be empty while the encryptMessage level throws its own
guard text Message cannot be empty. -/
theorem C9_empty_plaintext_rejected :
    (∀ k ivR saltR, encryptData "" k ivR saltR =
      .error "Encryption failed: Plaintext cannot be empty") ∧
    (∀ ck ivR saltR, encryptMessage "" ck ivR saltR =
      .error "Message encryption failed: Message cannot be empty") :=
  ⟨fun _ _ _ => rfl, fun _ _ _ => rfl⟩

/-- C10: generateConversationKey rejects an empty conversation id and
fewer than two participants with the corresponding validation errors and
produces no key there; on success the stored participant list is the
sorted input, so it does not depend on the order in which the
participants were supplied. -/
theorem C10_generate_conversation_key (cid : String) (ps ps2 : List String)
    (kid aes : String) (now : Nat) :
    (∀ kid2 aes2 now2, generateConversationKey "" ps kid2 aes2 now2 =
      .error "Conversation key generation failed: Conversation ID cannot be empty") ∧
    (cid ≠ "" → ps.length < 2 → generateConversationKey cid ps kid aes now =
      .error "Conversation key generation failed: Conversation must have at least 2 participants") ∧
    (cid ≠ "" → 2 ≤ ps.length →
      ∃ ck, generateConversationKey cid ps kid aes now = .ok ck ∧
        ck.participants = ps.insertionSort (fun a b => a ≤ b) ∧
        ck.participants.Sorted (fun a b => a ≤ b) ∧
        ck.participants.Perm ps) ∧
    (cid ≠ "" → ps.Perm ps2 →
      generateConversationKey cid ps kid aes now =
        generateConversationKey cid ps2 kid aes now) := by
  refine ⟨fun _ _ _ => rfl, ?_, ?_, ?_⟩
  · intro hc hlen
    simp [generateConversationKey, hc, hlen]
  · intro hc hlen
    refine ⟨⟨kid, cid, aes, ps.insertionSort (fun a b => a ≤ b), now⟩, ?_, rfl, ?_, ?_⟩
    · simp [generateConversationKey, hc, Nat.not_lt.mpr hlen]
    · exact List.sorted_insertionSort _ _
    · exact List.perm_insertionSort _ _
  · intro hc hperm
    have hsort : ps.insertionSort (fun a b => a ≤ b) =
        ps2.insertionSort (fun a b => a ≤ b) :=
      List.eq_of_perm_of_sorted
        (((List.perm_insertionSort _ ps).trans hperm).trans
          (List.perm_insertionSort _ ps2).symm)
        (List.sorted_insertionSort _ _) (List.sorted_insertionSort _ _)
    unfold generateConversationKey
    rw [hperm.length_eq, hsort]

/-- Witness for C10 at a concrete conversation id and participant lists
supplied in two different orders. -/
theorem C10_generate_conversation_key_witness :
    ("conv" ≠ "" → ("u2" :: "u1" :: []).length < 2 →
      generateConversationKey "conv" ["u2", "u1"] "kid" "aes" 5 =
      .error "Conversation key generation failed: Conversation must have at least 2 participants") ∧
    ("conv" ≠ "" → 2 ≤ ("u2" :: "u1" :: []).length →
      ∃ ck, generateConversationKey "conv" ["u2", "u1"] "kid" "aes" 5 = .ok ck ∧
        ck.participants = ["u2", "u1"].insertionSort (fun a b => a ≤ b) ∧
        ck.participants.Sorted (fun a b => a ≤ b) ∧
        ck.participants.Perm ["u2", "u1"]) ∧
    ("conv" ≠ "" → List.Perm ["u2", "u1"] ["u1", "u2"] →
      generateConversationKey "conv" ["u2", "u1"] "kid" "aes" 5 =
        generateConversationKey "conv" ["u1", "u2"] "kid" "aes" 5) :=
  ⟨(C10_generate_conversation_key "conv" ["u2", "u1"] ["u1", "u2"] "kid" "aes" 5).2.1,
   (C10_generate_conversation_key "conv" ["u2", "u1"] ["u1", "u2"] "kid" "aes" 5).2.2.1,
   (C10_generate_conversation_key "conv" ["u2", "u1"] ["u1", "u2"] "kid" "aes" 5).2.2.2⟩

/-! ### Claims about the session registry -/

/-- The user_status_changed offline broadcast of handleDisconnection. -/
def isOfflineStatus (uid : Nat) : Action → Bool
  | .broadcastAll ev (.status u _ stat) =>
      ev == "user_status_changed" && u == uid && stat == "offline"
  | _ => false

/-- Filtering out a socket id twice is the same as filtering it once. -/
theorem filter_ne_idem (l : List String) (sid : String) :
    (l.filter (fun x => x != sid)).filter (fun x => x != sid)
      = l.filter (fun x => x != sid) := by
  rw [List.filter_filter]
  simp

/-- A user absent from the registry keys has no sockets. -/
theorem getUserSockets_eq_nil_of_not_mem (us : List (Nat × List String))
    (uid : Nat) (h : uid ∉ us.map Prod.fst) : getUserSockets us uid = [] := by
  induction us with
  | nil => rfl
  | cons e t ih =>
    have he : ¬ e.1 = uid := fun hc =>
      h (by rw [List.map_cons, hc]; exact List.mem_cons_self _ _)
    have ht : uid ∉ t.map Prod.fst := fun hc =>
      h (by rw [List.map_cons]; exact List.mem_cons_of_mem _ hc)
    rw [getUserSockets, if_neg he, ih ht]

/-- Removal for a user absent from the registry keys is the identity. -/
theorem removeUserSocket_of_not_mem (us : List (Nat × List String))
    (uid : Nat) (sid : String) (h : uid ∉ us.map Prod.fst) :
    removeUserSocket us uid sid = us := by
  induction us with
  | nil => rfl
  | cons e t ih =>
    have he : ¬ e.1 = uid := fun hc =>
      h (by rw [List.map_cons, hc]; exact List.mem_cons_self _ _)
    have ht : uid ∉ t.map Prod.fst := fun hc =>
      h (by rw [List.map_cons]; exact List.mem_cons_of_mem _ hc)
    rw [removeUserSocket, if_neg he, ih ht]

/-- removeUserSocket is idempotent on a registry with distinct keys (the
Map guarantees key uniqueness). -/
theorem removeUserSocket_idem (us : List (Nat × List String)) (uid : Nat)
    (sid : String) (hnd : (us.map Prod.fst).Nodup) :
    removeUserSocket (removeUserSocket us uid sid) uid sid
      = removeUserSocket us uid sid := by
  induction us with
  | nil => rfl
  | cons e t ih =>
    rw [List.map_cons, List.nodup_cons] at hnd
    by_cases he : e.1 = uid
    · have hnm : uid ∉ t.map Prod.fst := he ▸ hnd.1
      by_cases hemp : (e.2.filter (fun x => x != sid)).isEmpty = true
      · rw [removeUserSocket, if_pos he, if_pos hemp,
          removeUserSocket_of_not_mem t uid sid hnm]
      · rw [removeUserSocket, if_pos he, if_neg hemp, removeUserSocket,
          if_pos he, filter_ne_idem, if_neg hemp]
    · rw [removeUserSocket, if_neg he, removeUserSocket, if_neg he, ih hnd.2]

/-- Removing the only socket of a user empties the session set of that
user (registry keys assumed distinct, as a Map guarantees). -/
theorem getUserSockets_remove_only (us : List (Nat × List String)) (uid : Nat)
    (sid : String) (hnd : (us.map Prod.fst).Nodup)
    (h : getUserSockets us uid = [sid]) :
    getUserSockets (removeUserSocket us uid sid) uid = [] := by
  induction us with
  | nil => simp [getUserSockets] at h
  | cons e t ih =>
    rw [List.map_cons, List.nodup_cons] at hnd
    by_cases he : e.1 = uid
    · have h2 : e.2 = [sid] := by
        rw [getUserSockets, if_pos he] at h
        exact h
      have hnm : uid ∉ t.map Prod.fst := he ▸ hnd.1
      rw [removeUserSocket, if_pos he, if_pos (by simp [h2])]
      exact getUserSockets_eq_nil_of_not_mem t uid hnm
    · have h' : getUserSockets t uid = [sid] := by
        rw [getUserSockets, if_neg he] at h
        exact h
      rw [removeUserSocket, if_neg he, getUserSockets, if_neg he]
      exact ih hnd.2 h'

/-- C7: deregistration is idempotent, and when the deregistered session
was the last one of the user, the session set of that user is empty
afterwards and exactly one user_status_changed offline broadcast fires. -/
theorem C7_deregister_idempotent_offline_once :
    (∀ us uid sid, (List.map Prod.fst us).Nodup →
      removeUserSocket (removeUserSocket us uid sid) uid sid
        = removeUserSocket us uid sid) ∧
    (∀ st sock, (st.userSockets.map Prod.fst).Nodup →
      getUserSockets st.userSockets sock.userId = [sock.id] →
      getUserSockets (handleDisconnection st sock).1.userSockets sock.userId = [] ∧
      ((handleDisconnection st sock).2.countP (isOfflineStatus sock.userId)) = 1) := by
  refine ⟨fun us uid sid hnd => removeUserSocket_idem us uid sid hnd,
    fun st sock hnd h => ?_⟩
  have hrem := getUserSockets_remove_only st.userSockets sock.userId sock.id hnd h
  constructor
  · simp [handleDisconnection, hrem]
  · simp [handleDisconnection, hrem, List.countP_cons, isOfflineStatus]

/-- Witness for C7 at a registry holding a single session of one user. -/
theorem C7_deregister_idempotent_offline_once_witness :
    (removeUserSocket (removeUserSocket [(1, ["s1"])] 1 "s1") 1 "s1"
      = removeUserSocket [(1, ["s1"])] 1 "s1") ∧
    getUserSockets (handleDisconnection ⟨[(1, ["s1"])], [⟨"s1", 1, "u", []⟩]⟩
      ⟨"s1", 1, "u", []⟩).1.userSockets 1 = [] ∧
    ((handleDisconnection ⟨[(1, ["s1"])], [⟨"s1", 1, "u", []⟩]⟩
      ⟨"s1", 1, "u", []⟩).2.countP (isOfflineStatus 1)) = 1 :=
  ⟨C7_deregister_idempotent_offline_once.1 [(1, ["s1"])] 1 "s1" (by decide),
   C7_deregister_idempotent_offline_once.2
    ⟨[(1, ["s1"])], [⟨"s1", 1, "u", []⟩]⟩ ⟨"s1", 1, "u", []⟩
    (by decide) (by decide)⟩

/-! ### Claims about the conversation key store -/

/-- The in-place UPDATE of storeConversationKey does not change which
pairs a row matches. -/
theorem keyRowMatches_update (c : String) (u : Nat) (kid ek ivVal : String)
    (r : ConversationKeyRow) :
    keyRowMatches c u { r with keyId := kid, encryptedAesKey := ek, iv := ivVal }
      = keyRowMatches c u r := rfl

/-- The filtered rows of any pair keep their count across the UPDATE. -/
theorem length_filter_update (table : List ConversationKeyRow)
    (cid : String) (uid : Nat) (kid ek ivVal : String) (c : String) (u : Nat) :
    ((table.map (fun r => if keyRowMatches cid uid r then
        { r with keyId := kid, encryptedAesKey := ek, iv := ivVal } else r)).filter
      (keyRowMatches c u)).length = (table.filter (keyRowMatches c u)).length := by
  rw [← List.countP_eq_length_filter, ← List.countP_eq_length_filter,
    List.countP_map]
  refine List.countP_congr (fun r _ => ?_)
  by_cases hm : keyRowMatches cid uid r = true <;>
    simp [Function.comp, hm, keyRowMatches_update]

/-- A freshly inserted row matches exactly its own pair. -/
theorem keyRowMatches_new (cid : String) (uid : Nat) (kid ek ivVal : String)
    (nid : Nat) (c : String) (u : Nat) :
    keyRowMatches c u ⟨nid, kid, cid, uid, ek, ivVal⟩
      = (uid == u && cid == c) := rfl

/-- storeConversationKey keeps the one-row-per-pair invariant, leaves the
stored pair with exactly one row, and replaces (rather than appends) when
the pair already had a row. -/
theorem storeConversationKey_spec (table : List ConversationKeyRow)
    (cid : String) (uid : Nat) (kid ek ivVal : String) (nid : Nat)
    (hInv : KeyInv table) :
    KeyInv (storeConversationKey table cid uid kid ek ivVal nid) ∧
    ((storeConversationKey table cid uid kid ek ivVal nid).filter
      (keyRowMatches cid uid)).length = 1 ∧
    (0 < (table.filter (keyRowMatches cid uid)).length →
      (storeConversationKey table cid uid kid ek ivVal nid).length
        = table.length) := by
  unfold storeConversationKey
  by_cases hex : 0 < (table.filter (keyRowMatches cid uid)).length
  · simp only [hex, if_true]
    refine ⟨fun c u => ?_, ?_, fun _ => by simp⟩
    · rw [length_filter_update]
      exact hInv c u
    · rw [length_filter_update]
      exact Nat.le_antisymm (hInv cid uid) hex
  · rw [if_neg hex]
    have hnil : table.filter (keyRowMatches cid uid) = [] :=
      List.length_eq_zero.mp (Nat.eq_zero_of_not_pos hex)
    refine ⟨fun c u => ?_, ?_, fun hc => absurd hc hex⟩
    · rw [List.filter_append]
      by_cases hcu : u = uid ∧ c = cid
      · rcases hcu with ⟨hu, hcid⟩
        subst hu; subst hcid
        simp [hnil, keyRowMatches]
      · have hf : keyRowMatches c u ⟨nid, kid, cid, uid, ek, ivVal⟩ = false := by
          rw [keyRowMatches_new]
          rcases not_and_or.mp hcu with hu | hcid
          · rw [show (uid == u) = false from
              beq_eq_false_iff_ne.mpr (fun hh => hu hh.symm), Bool.false_and]
          · rw [show (cid == c) = false from
              beq_eq_false_iff_ne.mpr (fun hh => hcid hh.symm), Bool.and_false]
        simp only [List.filter_cons, hf, Bool.false_eq_true, if_false,
          List.filter_nil, List.append_nil]
        exact hInv c u
    · rw [List.filter_append, hnil]
      simp [keyRowMatches]

/-- C8: across every sequence of storeConversationKey operations starting
from the empty table, the store holds at most one row per
(conversationId, participantUserId) pair; each operation leaves its pair
with exactly one row, and an operation on a pair that already has a row
replaces it without growing the table. -/
theorem C8_key_store_one_row_per_pair :
    (∀ table cid uid kid ek ivVal nid, KeyInv table →
      KeyInv (storeConversationKey table cid uid kid ek ivVal nid) ∧
      ((storeConversationKey table cid uid kid ek ivVal nid).filter
        (keyRowMatches cid uid)).length = 1 ∧
      (0 < (table.filter (keyRowMatches cid uid)).length →
        (storeConversationKey table cid uid kid ek ivVal nid).length
          = table.length)) ∧
    (∀ ops : List StoreKeyOp, KeyInv (ops.foldl applyStoreKey [])) := by
  constructor
  · exact fun table cid uid kid ek ivVal nid hInv =>
      storeConversationKey_spec table cid uid kid ek ivVal nid hInv
  · have hgen : ∀ (ops : List StoreKeyOp) (t : List ConversationKeyRow),
        KeyInv t → KeyInv (ops.foldl applyStoreKey t) := by
      intro ops
      induction ops with
      | nil => exact fun t ht => ht
      | cons op rest ih =>
        intro t ht
        exact ih _ (storeConversationKey_spec t op.cid op.uid op.kid op.encKey
          op.ivVal op.rowId ht).1
    exact fun ops => hgen ops [] (fun c u => by simp)

/-- Witness for C8 at a concrete table already holding a row for the
stored pair. -/
theorem C8_key_store_one_row_per_pair_witness :
    KeyInv (storeConversationKey [⟨1, "k0", "c1", 4, "e0", "i0"⟩] "c1" 4
      "k1" "e1" "i1" 2) ∧
    ((storeConversationKey [⟨1, "k0", "c1", 4, "e0", "i0"⟩] "c1" 4
      "k1" "e1" "i1" 2).filter (keyRowMatches "c1" 4)).length = 1 ∧
    (0 < (([⟨1, "k0", "c1", 4, "e0", "i0"⟩] :
        List ConversationKeyRow).filter (keyRowMatches "c1" 4)).length →
      (storeConversationKey [⟨1, "k0", "c1", 4, "e0", "i0"⟩] "c1" 4
        "k1" "e1" "i1" 2).length = 1) :=
  C8_key_store_one_row_per_pair.1 [⟨1, "k0", "c1", 4, "e0", "i0"⟩] "c1" 4
    "k1" "e1" "i1" 2 (fun c u => by
      by_cases hc : keyRowMatches c u ⟨1, "k0", "c1", 4, "e0", "i0"⟩ = true <;>
        simp [List.filter_cons, hc])

/-! ### Claims about the conversation room router -/

/-- Joining a room makes the room a member of the room set. -/
theorem mem_addRoom_self (room : String) (rooms : List String) :
    room ∈ addRoom room rooms := by
  unfold addRoom
  split
  · next h => exact List.elem_iff.mp h
  · exact List.mem_append_right _ (List.mem_singleton.mpr rfl)

/-- Membership in membersOf, phrased over the socket list. -/
theorem mem_membersOf (st : ServerState) (cid : Nat) (sid : String) :
    sid ∈ membersOf st cid ↔
      ∃ s, s ∈ st.sockets ∧ s.id = sid ∧ roomName cid ∈ s.rooms := by
  unfold membersOf
  rw [List.mem_map]
  constructor
  · rintro ⟨s, hs, rfl⟩
    rw [List.mem_filter] at hs
    exact ⟨s, hs.1, rfl, List.elem_iff.mp hs.2⟩
  · rintro ⟨s, hs, rfl, hr⟩
    exact ⟨s, List.mem_filter.mpr ⟨hs, List.elem_iff.mpr hr⟩, rfl⟩

/-- C5 counterexample: a session that already joined the room stays in
membersOf even when a later join call is denied by the membership
collaborator, so membership after the call is not equivalent to the
authorization verdict of that call. -/
theorem C5_counterexample :
    ¬ (("j1" ∈ membersOf
        (handleJoinConversation ⟨[(7, ["j1"])], [⟨"j1", 7, "u7", ["conversation_3"]⟩]⟩
          ⟨"j1", 7, "u7", ["conversation_3"]⟩ 3 false).1 3) ↔ (false = true)) := by
  decide

/-- C5 amended: every join call consults the membership collaborator with
that call's conversation and user; all emissions of the call target the
joining session only; an authorized call subscribes the session (the
confirmation is emitted) and a denied call leaves the state unchanged and
emits the error, creating no new subscription; membership of every other
session is untouched, so after a denied call a session is a member exactly
when it already was before. -/
theorem C5_join_membership (st : ServerState) (sock : Socket) (cid : Nat)
    (access : Bool) (hmem : sock ∈ st.sockets)
    (hnd : (st.sockets.map Socket.id).Nodup) :
    Action.checkMembership cid sock.userId ∈
      (handleJoinConversation st sock cid access).2 ∧
    (∀ t ev p, Action.emit t ev p ∈ (handleJoinConversation st sock cid access).2 →
      t = sock.id) ∧
    (access = true →
      sock.id ∈ membersOf (handleJoinConversation st sock cid access).1 cid ∧
      Action.emit sock.id "conversation_joined"
        (.joined cid "Successfully joined conversation") ∈
        (handleJoinConversation st sock cid access).2) ∧
    (access = false →
      (handleJoinConversation st sock cid access).1 = st ∧
      Action.emit sock.id "error" (.err "Access denied to conversation") ∈
        (handleJoinConversation st sock cid access).2) ∧
    (∀ s, s ∈ st.sockets → s.id ≠ sock.id →
      (s.id ∈ membersOf (handleJoinConversation st sock cid access).1 cid ↔
        s.id ∈ membersOf st cid)) := by
  cases access with
  | false =>
    refine ⟨by simp [handleJoinConversation], ?_, by simp, ?_, ?_⟩
    · intro t ev p hin
      rw [show (handleJoinConversation st sock cid false).2 =
        [Action.checkMembership cid sock.userId,
         Action.emit sock.id "error" (.err "Access denied to conversation")]
        from rfl] at hin
      rcases List.mem_cons.mp hin with h | h
      · exact absurd h (by simp)
      · rcases List.mem_cons.mp h with h2 | h2
        · injection h2
        · exact absurd h2 (List.not_mem_nil _)
    · intro _
      exact ⟨rfl, by simp [handleJoinConversation]⟩
    · intro s _ _
      simp [handleJoinConversation]
  | true =>
    refine ⟨by simp [handleJoinConversation], ?_, ?_, by simp, ?_⟩
    · intro t ev p hin
      rw [show (handleJoinConversation st sock cid true).2 =
        [Action.checkMembership cid sock.userId,
         Action.emit sock.id "conversation_joined"
           (.joined cid "Successfully joined conversation")]
        from rfl] at hin
      rcases List.mem_cons.mp hin with h | h
      · exact absurd h (by simp)
      · rcases List.mem_cons.mp h with h2 | h2
        · injection h2
        · exact absurd h2 (List.not_mem_nil _)
    · intro _
      constructor
      · refine (mem_membersOf _ _ _).mpr
          ⟨{ sock with rooms := addRoom (roomName cid) sock.rooms }, ?_, rfl,
            mem_addRoom_self _ _⟩
        refine List.mem_map.mpr ⟨sock, hmem, ?_⟩
        simp [handleJoinConversation]
      · simp [handleJoinConversation]
    · intro s hs hne
      rw [mem_membersOf, mem_membersOf]
      constructor
      · rintro ⟨x, hx, hid, hr⟩
        simp only [handleJoinConversation] at hx
        rcases List.mem_map.mp hx with ⟨y, hy, hyx⟩
        by_cases hb : (y.id == sock.id) = true
        · have hysock : y = sock :=
            List.inj_on_of_nodup_map hnd hy hmem (beq_iff_eq.mp hb)
          rw [if_pos hb] at hyx
          have : x.id = sock.id := by rw [← hyx, hysock]
          exact absurd (this ▸ hid).symm hne
        · rw [if_neg hb] at hyx
          exact ⟨y, hy, hyx ▸ hid, hyx ▸ hr⟩
      · rintro ⟨x, hx, hid, hr⟩
        have hb : (x.id == sock.id) = false :=
          beq_eq_false_iff_ne.mpr (hid ▸ hne)
        refine ⟨x, ?_, hid, hr⟩
        simp only [handleJoinConversation]
        refine List.mem_map.mpr ⟨x, hx, ?_⟩
        rw [if_neg (by simp [hb])]

/-- Witness for C5 at a single-socket server with an authorized join. -/
theorem C5_join_membership_witness :
    Action.checkMembership 2 4 ∈
      (handleJoinConversation ⟨[(4, ["w1"])], [⟨"w1", 4, "u4", []⟩]⟩
        ⟨"w1", 4, "u4", []⟩ 2 true).2 ∧
    "w1" ∈ membersOf
      (handleJoinConversation ⟨[(4, ["w1"])], [⟨"w1", 4, "u4", []⟩]⟩
        ⟨"w1", 4, "u4", []⟩ 2 true).1 2 :=
  ⟨(C5_join_membership ⟨[(4, ["w1"])], [⟨"w1", 4, "u4", []⟩]⟩
      ⟨"w1", 4, "u4", []⟩ 2 true (by decide) (by decide)).1,
   ((C5_join_membership ⟨[(4, ["w1"])], [⟨"w1", 4, "u4", []⟩]⟩
      ⟨"w1", 4, "u4", []⟩ 2 true (by decide) (by decide)).2.2.1 rfl).1⟩

/-! ### Claims about the delivery engine fan-out -/

/-- Emission predicate: the action is an emit of the given event to the
given socket id. -/
def isEmitTo (sid ev : String) : Action → Bool
  | .emit t e _ => t == sid && e == ev
  | _ => false

/-- Number of emissions of the given event to the given socket id. -/
def emitCount (tr : List Action) (sid ev : String) : Nat :=
  tr.countP (isEmitTo sid ev)

/-- Emissions that deliver message content to a session. -/
def isDeliveryEmit : Action → Bool
  | .emit _ ev _ => ev == "message_sent" || ev == "new_message"
  | _ => false

/-- The success branch of handleSendMessage spelled out. -/
theorem handleSendMessage_success_eq (st : ServerState) (sock : Socket)
    (rid : Nat) (content ivs mt uuid : String) (convId insertId now : Nat)
    (h1 : rid ≠ 0) (h2 : content ≠ "") (h3 : ivs ≠ "") (h4 : rid ≠ sock.userId) :
    handleSendMessage st sock ⟨some rid, some content, some ivs, mt⟩
      (.ok convId) (some uuid) (.ok (insertId, now)) =
      Action.persisted uuid sock.userId content ivs mt ::
      Action.emit sock.id "message_sent"
        (.msg ⟨insertId, convId, sock.userId, sock.username, rid, content, ivs, mt, now⟩) ::
      (roomFanout st sock (roomName convId)
        ⟨insertId, convId, sock.userId, sock.username, rid, content, ivs, mt, now⟩ ++
       recipientFanout st rid (roomName convId)
        ⟨insertId, convId, sock.userId, sock.username, rid, content, ivs, mt, now⟩) := by
  have b1 : (rid == 0) = false := beq_eq_false_iff_ne.mpr h1
  have b2 : (content == "") = false := beq_eq_false_iff_ne.mpr h2
  have b3 : (ivs == "") = false := beq_eq_false_iff_ne.mpr h3
  have b4 : (rid == sock.userId) = false := beq_eq_false_iff_ne.mpr h4
  simp [handleSendMessage, b1, b2, b3, b4]

/-- Counting room fan-out emissions towards one socket id. -/
theorem countP_roomFanout_key (md : MessageData) (l : List Socket) (sid : String) :
    (l.map (fun x => Action.emit x.id "new_message" (.msg md))).countP
      (isEmitTo sid "new_message") = l.countP (fun x => x.id == sid) := by
  rw [List.countP_map]
  refine List.countP_congr (fun x _ => ?_)
  simp [Function.comp, isEmitTo]

/-- With distinct socket ids, a filtered socket list contains exactly one
socket with the id of a member that satisfies the filter. -/
theorem countP_key_filter_eq_one (l : List Socket) (q : Socket → Bool)
    (s : Socket) (hnd : (l.map Socket.id).Nodup) (hs : s ∈ l)
    (hq : q s = true) :
    (l.filter q).countP (fun x => x.id == s.id) = 1 := by
  induction l with
  | nil => cases hs
  | cons a t ih =>
    rw [List.map_cons, List.nodup_cons] at hnd
    rcases List.mem_cons.mp hs with rfl | hs'
    · rw [List.filter_cons_of_pos hq, List.countP_cons_of_pos _ _ (by simp)]
      have hz : (t.filter q).countP (fun x => x.id == s.id) = 0 := by
        refine List.countP_eq_zero.mpr (fun x hx => ?_)
        have hxt : x ∈ t := List.mem_of_mem_filter hx
        have hne : x.id ≠ s.id := fun hcc =>
          hnd.1 (hcc ▸ List.mem_map.mpr ⟨x, hxt, rfl⟩)
        simpa using hne
      rw [hz]
    · have hne : a.id ≠ s.id := fun hcc =>
        hnd.1 (hcc ▸ List.mem_map.mpr ⟨s, hs', rfl⟩)
      by_cases hqa : q a = true
      · rw [List.filter_cons_of_pos hqa,
          List.countP_cons_of_neg _ _ (by simpa using hne)]
        exact ih hnd.2 hs'
      · rw [List.filter_cons_of_neg (by simpa using hqa)]
        exact ih hnd.2 hs'

/-- With distinct socket ids, looking a member socket up by its id finds
exactly that socket. -/
theorem find?_id_eq_self (l : List Socket) (hnd : (l.map Socket.id).Nodup)
    (s : Socket) (hs : s ∈ l) :
    l.find? (fun x => x.id == s.id) = some s := by
  induction l with
  | nil => cases hs
  | cons a t ih =>
    rw [List.map_cons, List.nodup_cons] at hnd
    rcases List.mem_cons.mp hs with rfl | hs'
    · exact List.find?_cons_of_pos _ (by simp)
    · have hne : a.id ≠ s.id := fun hcc =>
        hnd.1 (hcc ▸ List.mem_map.mpr ⟨s, hs', rfl⟩)
      rw [List.find?_cons_of_neg _ (by simpa using hne)]
      exact ih hnd.2 hs'

/-- The recipient loop never emits towards a socket that is in the room:
the rooms.has check of socketHandler.js line 182 filters it out. -/
theorem countP_recipientFanout_zero (st : ServerState) (rid : Nat)
    (room : String) (md : MessageData) (s : Socket)
    (hnd : (st.sockets.map Socket.id).Nodup) (hs : s ∈ st.sockets)
    (hroom : s.rooms.contains room = true) :
    (recipientFanout st rid room md).countP (isEmitTo s.id "new_message") = 0 := by
  refine List.countP_eq_zero.mpr (fun a ha => ?_)
  rcases List.mem_filterMap.mp ha with ⟨sid, _, hf⟩
  split at hf
  · next rs heq =>
    split at hf
    · exact absurd hf (by simp)
    · next hin =>
      rw [Option.some.injEq] at hf
      subst hf
      by_cases hb : (sid == s.id) = true
      · have hsid : sid = s.id := beq_iff_eq.mp hb
        rw [hsid] at heq
        have hself : findSocket st s.id = some s := by
          unfold findSocket
          exact find?_id_eq_self st.sockets hnd s hs
        rw [hself, Option.some.injEq] at heq
        subst heq
        exact absurd hroom hin
      · simp [isEmitTo, hb]
  · exact absurd hf (by simp)

/-- Every element of the fan-out suffix is a new_message emission. -/
theorem fanout_shape (st : ServerState) (sock : Socket) (rid : Nat)
    (room : String) (md : MessageData) (a : Action)
    (ha : a ∈ roomFanout st sock room md ++ recipientFanout st rid room md) :
    ∃ t, a = Action.emit t "new_message" (.msg md) := by
  rcases List.mem_append.mp ha with h | h
  · rcases List.mem_map.mp h with ⟨x, _, rfl⟩
    exact ⟨x.id, rfl⟩
  · rcases List.mem_filterMap.mp h with ⟨sid, _, hf⟩
    split at hf
    · split at hf
      · exact absurd hf (by simp)
      · rw [Option.some.injEq] at hf
        exact ⟨sid, hf.symm⟩
    · exact absurd hf (by simp)

/-- C1 amended: for a send that reaches the store successfully, the
message_sent confirmation goes to the sending socket and only to it (not
to the other sessions of the sender); every other in-room session —
including other sessions of the sender — receives new_message exactly
once; and every online session of the recipient that is not in the room
also receives new_message, with no duplicate to in-room recipient
sessions. -/
theorem C1_broadcast_fanout (st : ServerState) (sock : Socket) (rid : Nat)
    (content ivs mt uuid : String) (convId insertId now : Nat)
    (hnd : (st.sockets.map Socket.id).Nodup)
    (h1 : rid ≠ 0) (h2 : content ≠ "") (h3 : ivs ≠ "") (h4 : rid ≠ sock.userId) :
    emitCount (handleSendMessage st sock ⟨some rid, some content, some ivs, mt⟩
      (.ok convId) (some uuid) (.ok (insertId, now))) sock.id "message_sent" = 1 ∧
    (∀ t ev p, Action.emit t ev p ∈
        handleSendMessage st sock ⟨some rid, some content, some ivs, mt⟩
          (.ok convId) (some uuid) (.ok (insertId, now)) →
      ev = "message_sent" → t = sock.id) ∧
    (∀ s, s ∈ st.sockets → s.id ≠ sock.id →
      s.rooms.contains (roomName convId) = true →
      emitCount (handleSendMessage st sock ⟨some rid, some content, some ivs, mt⟩
        (.ok convId) (some uuid) (.ok (insertId, now))) s.id "new_message" = 1) ∧
    (∀ sid rs, sid ∈ getUserSockets st.userSockets rid →
      findSocket st sid = some rs →
      rs.rooms.contains (roomName convId) = false →
      Action.emit sid "new_message"
        (.msg ⟨insertId, convId, sock.userId, sock.username, rid, content, ivs, mt, now⟩) ∈
        handleSendMessage st sock ⟨some rid, some content, some ivs, mt⟩
          (.ok convId) (some uuid) (.ok (insertId, now))) := by
  rw [handleSendMessage_success_eq st sock rid content ivs mt uuid convId
    insertId now h1 h2 h3 h4]
  refine ⟨?_, ?_, ?_, ?_⟩
  · unfold emitCount
    rw [List.countP_cons_of_neg _ _ (by simp [isEmitTo]),
      List.countP_cons_of_pos _ _ (by simp [isEmitTo]),
      List.countP_eq_zero.mpr (fun a ha => ?_)]
    rcases fanout_shape st sock rid (roomName convId) _ a ha with ⟨t, rfl⟩
    simp [isEmitTo]
  · intro t ev p hmem hev
    rcases List.mem_cons.mp hmem with h | h
    · exact absurd h (by simp)
    · rcases List.mem_cons.mp h with h2 | h2
      · injection h2
      · rcases fanout_shape st sock rid (roomName convId) _ _ h2 with ⟨t2, heq⟩
        injection heq with _ hev2 _
        rw [hev2] at hev
        exact absurd hev (by decide)
  · intro s hs hsne hroom
    unfold emitCount
    rw [List.countP_cons_of_neg _ _ (by simp [isEmitTo]),
      List.countP_cons_of_neg _ _ (by simp [isEmitTo]),
      List.countP_append]
    rw [show (roomFanout st sock (roomName convId)
        ⟨insertId, convId, sock.userId, sock.username, rid, content, ivs, mt, now⟩) =
      (st.sockets.filter (fun x => x.id != sock.id &&
          x.rooms.contains (roomName convId))).map
        (fun x => Action.emit x.id "new_message"
          (.msg ⟨insertId, convId, sock.userId, sock.username, rid, content, ivs, mt, now⟩))
      from rfl]
    rw [countP_roomFanout_key,
      countP_key_filter_eq_one st.sockets _ s hnd hs
        (by rw [Bool.and_eq_true]; exact ⟨bne_iff_ne.mpr hsne, hroom⟩),
      countP_recipientFanout_zero st rid (roomName convId) _ s hnd hs hroom]
  · intro sid rs hsid hfind hnr
    refine List.mem_cons_of_mem _ (List.mem_cons_of_mem _
      (List.mem_append_right _ (List.mem_filterMap.mpr ⟨sid, hsid, ?_⟩)))
    rw [hfind]
    simp [hnr]
    intro hmem
    have h2 : rs.rooms.contains (roomName convId) = true := List.elem_iff.mpr hmem
    rw [h2] at hnr
    cases hnr

def sockA1 : Socket := ⟨"a1", 1, "alice", ["conversation_5"]⟩

def sockA2 : Socket := ⟨"a2", 1, "alice", ["conversation_5"]⟩

def sockB1 : Socket := ⟨"b1", 2, "bob", ["conversation_5"]⟩

def sockB2 : Socket := ⟨"b2", 2, "bob", []⟩

/-- Sender alice with two sessions in the room, recipient bob with one
session in the room and one outside it. -/
def stC1 : ServerState :=
  ⟨[(1, ["a1", "a2"]), (2, ["b1", "b2"])], [sockA1, sockA2, sockB1, sockB2]⟩

/-- The trace of a send from the first alice session to bob. -/
def trC1 : List Action :=
  handleSendMessage stC1 sockA1 ⟨some 2, some "ct", some "ivs", "text"⟩
    (.ok 5) (some "uuid") (.ok (10, 100))

/-- C1 counterexample: a2 is a session of the sender, yet it receives no
message_sent confirmation (the code emits it to the sending socket only)
and it does receive new_message (the room broadcast excludes only the
sending socket, not every session of the sender). -/
theorem C1_counterexample :
    "a2" ∈ getUserSockets stC1.userSockets 1 ∧
    emitCount trC1 "a2" "message_sent" = 0 ∧
    emitCount trC1 "a2" "new_message" = 1 := by
  decide

/-- Witness for C1 at the concrete four-session server. -/
theorem C1_broadcast_fanout_witness :
    emitCount trC1 "a1" "message_sent" = 1 ∧
    emitCount trC1 "b1" "new_message" = 1 ∧
    Action.emit "b2" "new_message"
      (.msg ⟨10, 5, 1, "alice", 2, "ct", "ivs", "text", 100⟩) ∈ trC1 :=
  ⟨(C1_broadcast_fanout stC1 sockA1 2 "ct" "ivs" "text" "uuid" 5 10 100
      (by decide) (by decide) (by decide) (by decide) (by decide)).1,
   (C1_broadcast_fanout stC1 sockA1 2 "ct" "ivs" "text" "uuid" 5 10 100
      (by decide) (by decide) (by decide) (by decide) (by decide)).2.2.1
     sockB1 (by decide) (by decide) (by decide),
   (C1_broadcast_fanout stC1 sockA1 2 "ct" "ivs" "text" "uuid" 5 10 100
      (by decide) (by decide) (by decide) (by decide) (by decide)).2.2.2
     "b2" sockB2 (by decide) (by decide) (by decide)⟩

/-- Every run of handleSendMessage either rejects with a single
message_error to the sender, or opens with the successful store append. -/
theorem handleSendMessage_shape (st : ServerState) (sock : Socket)
    (data : SendData) (convRes : Except String Nat) (uuidRow : Option String)
    (storeRes : Except String (Nat × Nat)) :
    (∃ m, handleSendMessage st sock data convRes uuidRow storeRes =
      [Action.emit sock.id "message_error" (.err m)]) ∨
    (∃ uuid c i m rest, handleSendMessage st sock data convRes uuidRow storeRes =
      Action.persisted uuid sock.userId c i m :: rest) := by
  obtain ⟨orid, oc, oiv, mt⟩ := data
  cases orid with
  | none => exact Or.inl ⟨"Missing required fields", rfl⟩
  | some rid =>
  cases oc with
  | none => exact Or.inl ⟨"Missing required fields", rfl⟩
  | some content =>
  cases oiv with
  | none => exact Or.inl ⟨"Missing required fields", rfl⟩
  | some ivs =>
  by_cases hb : (rid == 0 || content == "" || ivs == "") = true
  · exact Or.inl ⟨"Missing required fields", by simp [handleSendMessage, hb]⟩
  · by_cases hs : (rid == sock.userId) = true
    · exact Or.inl ⟨"Cannot send message to yourself",
        by simp [handleSendMessage, hb, hs]⟩
    · cases convRes with
      | error e => exact Or.inl ⟨"Failed to send message",
          by simp [handleSendMessage, hb, hs]⟩
      | ok convId =>
        cases uuidRow with
        | none => exact Or.inl ⟨"Conversation not found",
            by simp [handleSendMessage, hb, hs]⟩
        | some uuid =>
          cases storeRes with
          | error e => exact Or.inl ⟨"Failed to send message",
              by simp [handleSendMessage, hb, hs]⟩
          | ok pr =>
            obtain ⟨insertId, now⟩ := pr
            have h1 : rid ≠ 0 := fun hc => hb (by simp [hc])
            have h2 : content ≠ "" := fun hc => hb (by simp [hc])
            have h3 : ivs ≠ "" := fun hc => hb (by simp [hc])
            have h4 : rid ≠ sock.userId := fun hc => hs (by simp [hc])
            exact Or.inr ⟨uuid, content, ivs, mt, _,
              handleSendMessage_success_eq st sock rid content ivs mt uuid
                convId insertId now h1 h2 h3 h4⟩

/-- C4: a store failure terminates the send with the sender notified by a
single message_error and nothing else emitted (so no broadcast and no
confirmation); and in every run, any delivery emission (message_sent or
new_message) is preceded in the trace by the successful store append. -/
theorem C4_no_delivery_before_persist :
    (∀ st sock rid content ivs mt convId uuid err,
      rid ≠ 0 → content ≠ "" → ivs ≠ "" → rid ≠ sock.userId →
      handleSendMessage st sock ⟨some rid, some content, some ivs, mt⟩
        (.ok convId) (some uuid) (.error err) =
        [Action.emit sock.id "message_error" (.err "Failed to send message")]) ∧
    (∀ st sock data convRes uuidRow storeRes pre a post,
      handleSendMessage st sock data convRes uuidRow storeRes = pre ++ a :: post →
      isDeliveryEmit a = true →
      ∃ uuid sid c i m, Action.persisted uuid sid c i m ∈ pre) := by
  constructor
  · intro st sock rid content ivs mt convId uuid err h1 h2 h3 h4
    have b1 : (rid == 0) = false := beq_eq_false_iff_ne.mpr h1
    have b2 : (content == "") = false := beq_eq_false_iff_ne.mpr h2
    have b3 : (ivs == "") = false := beq_eq_false_iff_ne.mpr h3
    have b4 : (rid == sock.userId) = false := beq_eq_false_iff_ne.mpr h4
    simp [handleSendMessage, b1, b2, b3, b4]
  · intro st sock data convRes uuidRow storeRes pre a post htr hd
    rcases handleSendMessage_shape st sock data convRes uuidRow storeRes with
      ⟨m, hm⟩ | ⟨uuid, c, i, m, rest, hm⟩
    · rw [hm] at htr
      cases pre with
      | nil =>
        rw [List.nil_append] at htr
        have ha : a = Action.emit sock.id "message_error" (.err m) :=
          (List.cons.inj htr).1.symm
        rw [ha] at hd
        simp [isDeliveryEmit] at hd
      | cons p ps =>
        have := congrArg List.length htr
        simp [List.length_append] at this
    · rw [hm] at htr
      cases pre with
      | nil =>
        rw [List.nil_append] at htr
        have ha : a = Action.persisted uuid sock.userId c i m :=
          (List.cons.inj htr).1.symm
        rw [ha] at hd
        simp [isDeliveryEmit] at hd
      | cons p ps =>
        rw [List.cons_append] at htr
        have hp : p = Action.persisted uuid sock.userId c i m :=
          (List.cons.inj htr).1.symm
        exact ⟨uuid, sock.userId, c, i, m, hp ▸ List.mem_cons_self p ps⟩

/-- Witness for C4: a store failure at a concrete send produces only the
message_error, and in a concrete successful send the message_sent
emission sits after the persisted append. -/
theorem C4_no_delivery_before_persist_witness :
    (handleSendMessage ⟨[], []⟩ ⟨"s", 1, "u", []⟩ ⟨some 2, some "c", some "i", "t"⟩
      (.ok 3) (some "uu") (.error "boom") =
      [Action.emit "s" "message_error" (.err "Failed to send message")]) ∧
    (∃ uuid sid c i m, Action.persisted uuid sid c i m ∈
      [Action.persisted "uu" 1 "c" "i" "t"]) :=
  ⟨C4_no_delivery_before_persist.1 ⟨[], []⟩ ⟨"s", 1, "u", []⟩ 2 "c" "i" "t" 3
      "uu" "boom" (by decide) (by decide) (by decide) (by decide),
   C4_no_delivery_before_persist.2 ⟨[], []⟩ ⟨"s", 1, "u", []⟩
      ⟨some 2, some "c", some "i", "t"⟩ (.ok 3) (some "uu") (.ok (7, 9))
      [Action.persisted "uu" 1 "c" "i" "t"]
      (Action.emit "s" "message_sent"
        (.msg ⟨7, 3, 1, "u", 2, "c", "i", "t", 9⟩)) []
      (by decide) (by decide)⟩

end Atch
